import Mathlib

/-!
Verification of the file-tracking subsystem of this repository.

The core under verification is `FileTrackerService`
(`packages/core/src/utils/fileTrackerService.ts`): a bounded registry of
per-file entries with lifecycle statuses, capacity eviction, and freshness
queries.  The freshness evaluator (`FileStateTracker`) is an external
collaborator whose source is not part of the core file; it is modelled
from the spec (sections 4.1 and 6) below, as is the filesystem it reads.

Modelling conventions:
* wall-clock time is an explicit `Nat` argument `now` to every operation
  that calls `new Date()`; within one operation all `new Date()` calls
  observe the same tick (the finest faithful approximation of the
  millisecond-resolution JS clock);
* the JS `Map` (insertion-ordered, unique keys) is an association list;
  `set` replaces in place, otherwise appends; iteration is list order;
* `async` methods are sequential state transformers: each takes the
  registry (and a filesystem snapshot for the duration of the call) and
  returns the updated registry plus its result; a thrown exception is an
  `Except.error`, which aborts the call without installing a new registry.
-/

namespace FileTracker

/-- Status of a tracked file (enum `FileStatus` in the source). -/
inductive FileStatus where
  | not_read
  | read_current
  | read_stale
  | read_error
deriving DecidableEq, Repr

/-- Modelled from the spec: the data a live file exposes to the
filesystem collaborator — a high-resolution last-modified timestamp,
a byte size, and the raw content bytes (spec section 6, Inbound). -/
structure FileData where
  mtime : Nat
  size : Nat
  content : List Nat
deriving DecidableEq, Repr

/-- Modelled from the spec: the filesystem as seen during one operation —
a partial map from path to live file data; `none` means the path cannot
be stat'd or read (not found, permission denied, ...). -/
def FileSystem : Type := String → Option FileData

/-- Modelled from the spec: a `Snapshot` (`FileState` in the source) —
an immutable capture of observed metadata plus either a content digest
(content-hash mode) or the raw content (spec section 3). -/
structure FileState where
  mtime : Nat
  size : Nat
  contentHash : Option Nat
  content : Option (List Nat)
deriving DecidableEq, Repr

/-- Modelled from the spec: the content digest used in content-hash mode.
Any fixed total function of the bytes is adequate for the registry's
behaviour (only equality of digests is ever consulted). -/
def digest (content : List Nat) : Nat :=
  content.foldl (fun h b => h * 31 + b) 7

/-- Modelled from the spec: the human-readable text of the
`FileAccessError` raised when a path cannot be stat'd (section 6:
a machine-readable reason such as not-found plus a message). -/
def fsNotFoundMsg (path : String) : String :=
  "ENOENT: no such file or directory, stat " ++ path

/-- Modelled from the spec: the snapshot `capture` builds from live file
data — metadata always; digest in content-hash mode, raw content
otherwise (spec section 4.1, `capture`). -/
def mkFileState (useContentHash : Bool) (d : FileData) : FileState :=
  { mtime := d.mtime
    size := d.size
    contentHash := if useContentHash then some (digest d.content) else none
    content := if useContentHash then none else some d.content }

/-- Modelled from the spec: `Evaluator.capture(path)` (`getFileState` in
the source's collaborator): stat and read the live file, failing with a
`FileAccessError` when the path is inaccessible (spec section 4.1). -/
def getFileState (useContentHash : Bool) (path : String) (fs : FileSystem) :
    Except String FileState :=
  match fs path with
  | none => .error (fsNotFoundMsg path)
  | some d => .ok (mkFileState useContentHash d)

/-- Result of a freshness comparison (`FileFreshnessResult` in the source). -/
structure FileFreshnessResult where
  isFresh : Bool
deriving DecidableEq, Repr

/-- Modelled from the spec: `Evaluator.compare(path, snapshot)`
(`checkFreshness` in the source's collaborator): re-stat the path; in
content-hash mode fresh iff the digest matches, otherwise fresh iff both
mtime and size match exactly; inaccessible path fails with a
`FileAccessError` (spec section 4.1, `compare`). -/
def checkFreshness (useContentHash : Bool) (path : String) (snap : FileState)
    (fs : FileSystem) : Except String FileFreshnessResult :=
  match fs path with
  | none => .error (fsNotFoundMsg path)
  | some d =>
      .ok { isFresh :=
        if useContentHash then decide (snap.contentHash = some (digest d.content))
        else decide (snap.mtime = d.mtime ∧ snap.size = d.size) }

/-- Entry for a tracked file (`FileEntry` in the source). -/
structure FileEntry where
  path : String
  state : FileState
  status : FileStatus
  firstReadAt : Nat
  lastUpdatedAt : Nat
  error : Option String
deriving DecidableEq, Repr

/-- The registry (`FileTrackerService` in the source): resolved options
plus the insertion-ordered map `trackedFiles`. -/
structure FileTrackerService where
  useContentHash : Bool
  maxTrackedFiles : Nat
  trackAllFiles : Bool
  trackedFiles : List (String × FileEntry)
deriving DecidableEq, Repr

/-- Lookup in the insertion-ordered map (`Map.get`). -/
def mapGet : List (String × FileEntry) → String → Option FileEntry
  | [], _ => none
  | (k, v) :: rest, key => if k = key then some v else mapGet rest key

/-- Insertion in the insertion-ordered map (`Map.set`): replaces in place
when the key is present, appends otherwise. -/
def mapSet : List (String × FileEntry) → String → FileEntry → List (String × FileEntry)
  | [], key, v => [(key, v)]
  | (k, w) :: rest, key, v =>
      if k = key then (k, v) :: rest else (k, w) :: mapSet rest key v

/-- Deletion in the insertion-ordered map (`Map.delete`), result map only. -/
def mapDelete : List (String × FileEntry) → String → List (String × FileEntry)
  | [], _ => []
  | (k, w) :: rest, key =>
      if k = key then rest else (k, w) :: mapDelete rest key

/-- The scan inside `evictOldestEntry`: walk the entries in insertion
order carrying `oldestPath`/`oldestTime`, replacing them whenever an
entry's `firstReadAt` is strictly earlier than the running `oldestTime`. -/
def findOldest : List (String × FileEntry) → Option String → Nat → Option String
  | [], best, _ => best
  | (k, e) :: rest, best, t =>
      if e.firstReadAt < t then findOldest rest (some k) e.firstReadAt
      else findOldest rest best t

/-- `evictOldestEntry` from the source: `oldestTime` starts at `new Date()`
(the current tick `now`); if the scan found a path, delete it, otherwise
do nothing. -/
def evictOldestEntry (tf : List (String × FileEntry)) (now : Nat) :
    List (String × FileEntry) :=
  match findOldest tf none now with
  | some p => mapDelete tf p
  | none => tf

/-- `registerFile` from the source: build a fresh `read_current` entry
with both timestamps `now`, install it, then evict once if the size
strictly exceeds `maxTrackedFiles`. -/
def registerFile (svc : FileTrackerService) (filePath : String)
    (state : FileState) (now : Nat) : FileTrackerService :=
  let entry : FileEntry :=
    { path := filePath, state := state, status := FileStatus.read_current
      firstReadAt := now, lastUpdatedAt := now, error := none }
  let tf := mapSet svc.trackedFiles filePath entry
  if tf.length > svc.maxTrackedFiles then
    { svc with trackedFiles := evictOldestEntry tf now }
  else
    { svc with trackedFiles := tf }

/-- `updateFileState` from the source: throw `File not tracked: path` on
an absent path; otherwise store the new state and refresh
`lastUpdatedAt`, then set the status from the freshness check —
`read_current`/`read_stale` on success (clearing `error`), `read_error`
with the caught message on failure. -/
def updateFileState (svc : FileTrackerService) (filePath : String)
    (newState : FileState) (now : Nat) (fs : FileSystem) :
    Except String FileTrackerService :=
  match mapGet svc.trackedFiles filePath with
  | none => .error ("File not tracked: " ++ filePath)
  | some entry =>
      let entry := { entry with state := newState, lastUpdatedAt := now }
      match checkFreshness svc.useContentHash filePath newState fs with
      | .ok r =>
          let entry := { entry with
            status := if r.isFresh then FileStatus.read_current else FileStatus.read_stale
            error := none }
          .ok { svc with trackedFiles := mapSet svc.trackedFiles filePath entry }
      | .error e =>
          let entry := { entry with status := FileStatus.read_error, error := some e }
          .ok { svc with trackedFiles := mapSet svc.trackedFiles filePath entry }

/-- `getFileStatus` from the source: plain map lookup. -/
def getFileStatus (svc : FileTrackerService) (filePath : String) : Option FileEntry :=
  mapGet svc.trackedFiles filePath

/-- `isFileStale` from the source: untracked ⇒ `false`; otherwise run the
freshness check against the stored state — `!isFresh` on success, `true`
when the check throws.  The method never writes the map, so the registry
component of the result is the input registry. -/
def isFileStale (svc : FileTrackerService) (filePath : String) (fs : FileSystem) :
    FileTrackerService × Bool :=
  match mapGet svc.trackedFiles filePath with
  | none => (svc, false)
  | some entry =>
      match checkFreshness svc.useContentHash filePath entry.state fs with
      | .ok r => (svc, !r.isFresh)
      | .error _ => (svc, true)

/-- `refreshFileState` from the source: untracked ⇒ `false`, no change;
otherwise capture a new state and run `updateFileState`, returning
`true`; any exception from either step is caught, marking the entry
`read_error` with the caught message and a refreshed `lastUpdatedAt`
(the stored state untouched), returning `false`. -/
def refreshFileState (svc : FileTrackerService) (filePath : String) (now : Nat)
    (fs : FileSystem) : FileTrackerService × Bool :=
  match mapGet svc.trackedFiles filePath with
  | none => (svc, false)
  | some entry =>
      match getFileState svc.useContentHash filePath fs with
      | .ok newState =>
          match updateFileState svc filePath newState now fs with
          | .ok svc' => (svc', true)
          | .error e =>
              let entry := { entry with status := FileStatus.read_error
                                        error := some e, lastUpdatedAt := now }
              ({ svc with trackedFiles := mapSet svc.trackedFiles filePath entry }, false)
      | .error e =>
          let entry := { entry with status := FileStatus.read_error
                                    error := some e, lastUpdatedAt := now }
          ({ svc with trackedFiles := mapSet svc.trackedFiles filePath entry }, false)

/-- `removeFile` from the source: `Map.delete`, returning whether the
path was present. -/
def removeFile (svc : FileTrackerService) (filePath : String) :
    FileTrackerService × Bool :=
  match mapGet svc.trackedFiles filePath with
  | some _ => ({ svc with trackedFiles := mapDelete svc.trackedFiles filePath }, true)
  | none => (svc, false)

/-- `clear` from the source: `Map.clear`. -/
def clear (svc : FileTrackerService) : FileTrackerService :=
  { svc with trackedFiles := [] }

/-- One step of the `getStats` loop: increment the counter of one status. -/
def bumpStat (acc : FileStatus → Nat) (st : FileStatus) : FileStatus → Nat :=
  fun s => if s = st then acc s + 1 else acc s

/-- `getStats` from the source: start every status counter at zero (the
reduce over `Object.values(FileStatus)`), then bump one counter per
tracked entry. -/
def getStats (svc : FileTrackerService) : FileStatus → Nat :=
  svc.trackedFiles.foldl (fun acc pe => bumpStat acc pe.2.status) (fun _ => 0)

/-- `autoTrackFile` from the source: `registerFile` when `trackAllFiles`
is set, otherwise a no-op. -/
def autoTrackFile (svc : FileTrackerService) (filePath : String)
    (state : FileState) (now : Nat) : FileTrackerService :=
  if svc.trackAllFiles then registerFile svc filePath state now else svc

/-- The representation invariant the JS `Map` guarantees for the
association list: keys are unique. -/
def WellFormed (svc : FileTrackerService) : Prop :=
  (svc.trackedFiles.map Prod.fst).Nodup

/-- Registry states reachable through the service's public operations,
starting from a freshly constructed service (empty map, any resolved
options). -/
inductive Reachable : FileTrackerService → Prop where
  | init (uch : Bool) (max : Nat) (taf : Bool) :
      Reachable { useContentHash := uch, maxTrackedFiles := max
                  trackAllFiles := taf, trackedFiles := [] }
  | register {svc} (p : String) (s : FileState) (now : Nat) :
      Reachable svc → Reachable (registerFile svc p s now)
  | update {svc svc'} (p : String) (s : FileState) (now : Nat) (fs : FileSystem) :
      Reachable svc → updateFileState svc p s now fs = .ok svc' → Reachable svc'
  | refresh {svc} (p : String) (now : Nat) (fs : FileSystem) :
      Reachable svc → Reachable (refreshFileState svc p now fs).1
  | staleQuery {svc} (p : String) (fs : FileSystem) :
      Reachable svc → Reachable (isFileStale svc p fs).1
  | remove {svc} (p : String) :
      Reachable svc → Reachable (removeFile svc p).1
  | clearAll {svc} :
      Reachable svc → Reachable (clear svc)
  | autoTrack {svc} (p : String) (s : FileState) (now : Nat) :
      Reachable svc → Reachable (autoTrackFile svc p s now)

/-- Total of the four status counters of a stats record. -/
def sumStats (f : FileStatus → Nat) : Nat :=
  f FileStatus.not_read + f FileStatus.read_current +
    f FileStatus.read_stale + f FileStatus.read_error

/-- Invariant of reachable registries: no materialized entry ever
carries the `not_read` status. -/
def StatusInvL (l : List (String × FileEntry)) : Prop :=
  ∀ q e, (q, e) ∈ l → e.status ≠ FileStatus.not_read

/-! ### Concrete fixtures used to instantiate the theorems -/

/-- A concrete snapshot (metadata-only mode): mtime 1, size 13, raw
content stored. -/
def stW : FileState :=
  { mtime := 1, size := 13, contentHash := none, content := some [104, 105] }

/-- A second, different concrete snapshot. -/
def stW2 : FileState :=
  { mtime := 2, size := 14, contentHash := none, content := some [104] }

/-- A service with all options at their defaults and nothing tracked. -/
def svcEmpty : FileTrackerService :=
  { useContentHash := false, maxTrackedFiles := 1000
    trackAllFiles := false, trackedFiles := [] }

/-- The service after registering path `a` with `stW` at tick 0. -/
def svcA : FileTrackerService := registerFile svcEmpty "a" stW 0

/-- The entry `svcA` holds for path `a`. -/
def eA : FileEntry :=
  { path := "a", state := stW, status := FileStatus.read_current
    firstReadAt := 0, lastUpdatedAt := 0, error := none }

/-- Live data for path `a` agreeing with `stW`. -/
def dW : FileData := { mtime := 1, size := 13, content := [104, 105] }

/-- A filesystem where only path `a` exists, with data `dW`. -/
def fsA : FileSystem := fun p => if p = "a" then some dW else none

/-- A filesystem where no path is accessible. -/
def fsNone : FileSystem := fun _ => none

/-! ### Association-list map lemmas -/

theorem mapGet_mapSet_self (l : List (String × FileEntry)) (k : String) (v : FileEntry) :
    mapGet (mapSet l k v) k = some v := by
  induction l with
  | nil => simp [mapSet, mapGet]
  | cons hd tl ih =>
      obtain ⟨a, b⟩ := hd
      by_cases hak : a = k
      · simp [mapSet, mapGet, hak]
      · simp [mapSet, mapGet, hak, ih]

theorem mapGet_mapSet_ne (l : List (String × FileEntry)) (k k' : String) (v : FileEntry)
    (h : k' ≠ k) : mapGet (mapSet l k v) k' = mapGet l k' := by
  have hkk : ¬ k = k' := fun he => h he.symm
  induction l with
  | nil => simp [mapSet, mapGet, hkk]
  | cons hd tl ih =>
      obtain ⟨a, b⟩ := hd
      simp only [mapSet]
      by_cases hak : a = k
      · rw [if_pos hak]
        have hne : ¬ a = k' := fun he => hkk (hak.symm.trans he)
        simp [mapGet, hne]
      · rw [if_neg hak]
        simp only [mapGet]
        rw [ih]

theorem mapGet_mapDelete_ne (l : List (String × FileEntry)) (p k : String)
    (h : p ≠ k) : mapGet (mapDelete l p) k = mapGet l k := by
  induction l with
  | nil => simp [mapDelete]
  | cons hd tl ih =>
      obtain ⟨a, b⟩ := hd
      simp only [mapDelete]
      by_cases hap : a = p
      · rw [if_pos hap]
        have hne : ¬ a = k := fun he => h (hap.symm.trans he)
        simp [mapGet, hne]
      · rw [if_neg hap]
        simp only [mapGet]
        rw [ih]

theorem mem_mapSet (l : List (String × FileEntry)) (k : String) (v : FileEntry) :
    ∀ q e, (q, e) ∈ mapSet l k v → (q, e) ∈ l ∨ (q, e) = (k, v) := by
  induction l with
  | nil =>
      intro q e h
      simp only [mapSet, List.mem_singleton] at h
      exact Or.inr h
  | cons hd tl ih =>
      intro q e h
      obtain ⟨a, b⟩ := hd
      simp only [mapSet] at h
      by_cases hak : a = k
      · rw [if_pos hak] at h
        rcases List.mem_cons.mp h with h1 | h1
        · exact Or.inr (by rw [h1, hak])
        · exact Or.inl (List.mem_cons_of_mem _ h1)
      · rw [if_neg hak] at h
        rcases List.mem_cons.mp h with h1 | h1
        · exact Or.inl (List.mem_cons.mpr (Or.inl h1))
        · rcases ih q e h1 with h2 | h2
          · exact Or.inl (List.mem_cons_of_mem _ h2)
          · exact Or.inr h2

theorem mem_mapDelete (l : List (String × FileEntry)) (p : String) :
    ∀ q e, (q, e) ∈ mapDelete l p → (q, e) ∈ l := by
  induction l with
  | nil =>
      intro q e h
      simp [mapDelete] at h
  | cons hd tl ih =>
      intro q e h
      obtain ⟨a, b⟩ := hd
      simp only [mapDelete] at h
      by_cases hap : a = p
      · rw [if_pos hap] at h
        exact List.mem_cons_of_mem _ h
      · rw [if_neg hap] at h
        rcases List.mem_cons.mp h with h1 | h1
        · exact List.mem_cons.mpr (Or.inl h1)
        · exact List.mem_cons_of_mem _ (ih q e h1)

theorem mem_mapSet_key_nodup (l : List (String × FileEntry)) (k : String)
    (v : FileEntry) :
    ∀ e, (l.map Prod.fst).Nodup → (k, e) ∈ mapSet l k v → e = v := by
  induction l with
  | nil =>
      intro e _ h
      simp only [mapSet, List.mem_singleton, Prod.mk.injEq] at h
      exact h.2
  | cons hd tl ih =>
      intro e hnd h
      obtain ⟨a, b⟩ := hd
      simp only [List.map_cons, List.nodup_cons] at hnd
      simp only [mapSet] at h
      by_cases hak : a = k
      · rw [if_pos hak] at h
        rcases List.mem_cons.mp h with h1 | h1
        · exact ((Prod.mk.injEq _ _ _ _).mp h1).2
        · exact absurd (by rw [hak]; exact List.mem_map_of_mem Prod.fst h1) hnd.1
      · rw [if_neg hak] at h
        rcases List.mem_cons.mp h with h1 | h1
        · exact absurd ((Prod.mk.injEq _ _ _ _).mp h1).1.symm hak
        · exact ih e hnd.2 h1

theorem findOldest_spec (l : List (String × FileEntry)) :
    ∀ (best : Option String) (t : Nat) (p : String),
      findOldest l best t = some p →
      best = some p ∨ ∃ e, (p, e) ∈ l ∧ e.firstReadAt < t := by
  induction l with
  | nil =>
      intro best t p h
      simp only [findOldest] at h
      exact Or.inl h
  | cons hd tl ih =>
      intro best t p h
      obtain ⟨a, b⟩ := hd
      simp only [findOldest] at h
      by_cases hlt : b.firstReadAt < t
      · rw [if_pos hlt] at h
        rcases ih (some a) b.firstReadAt p h with h' | h'
        · obtain rfl : a = p := Option.some.inj h'
          exact Or.inr ⟨b, List.mem_cons_self _ _, hlt⟩
        · obtain ⟨e, he, hlt'⟩ := h'
          exact Or.inr ⟨e, List.mem_cons_of_mem _ he, lt_trans hlt' hlt⟩
      · rw [if_neg hlt] at h
        rcases ih best t p h with h' | h'
        · exact Or.inl h'
        · obtain ⟨e, he, hlt'⟩ := h'
          exact Or.inr ⟨e, List.mem_cons_of_mem _ he, hlt'⟩

/-- After `registerFile svc k s now` on a well-formed registry, the map
holds exactly the freshly built entry at `k`: the insertion installs it
and the eviction scan can never select `k`, since the scan only selects
entries with `firstReadAt` strictly before `now` while the new entry
carries `firstReadAt = now`. -/
theorem mapGet_registerFile (svc : FileTrackerService) (k : String)
    (s : FileState) (now : Nat) (hWF : WellFormed svc) :
    mapGet (registerFile svc k s now).trackedFiles k =
      some { path := k, state := s, status := FileStatus.read_current
             firstReadAt := now, lastUpdatedAt := now, error := none } := by
  unfold registerFile
  set v : FileEntry :=
    { path := k, state := s, status := FileStatus.read_current
      firstReadAt := now, lastUpdatedAt := now, error := none } with hv
  set tf := mapSet svc.trackedFiles k v with htf
  by_cases hlen : tf.length > svc.maxTrackedFiles
  · simp only [if_pos hlen]
    unfold evictOldestEntry
    cases hfo : findOldest tf none now with
    | none => exact mapGet_mapSet_self _ _ _
    | some p =>
        rcases findOldest_spec tf none now p hfo with h | h
        · exact absurd h (by simp)
        · obtain ⟨e, he, hlt⟩ := h
          have hpk : p ≠ k := by
            intro hpk
            subst hpk
            have : e = v := mem_mapSet_key_nodup svc.trackedFiles p v e hWF (htf ▸ he)
            rw [this, hv] at hlt
            exact lt_irrefl now hlt
          rw [mapGet_mapDelete_ne tf p k hpk]
          exact mapGet_mapSet_self _ _ _
  · simp only [if_neg hlen]
    exact mapGet_mapSet_self _ _ _

/-! ### Claim C9 -/

/-- C9: immediately after `registerFile(path, snapshot)` returns, the
entry for that path exists, has status `read_current`, stores the
supplied snapshot, and its `firstReadAt` equals its `lastUpdatedAt`
(both are the registration tick). -/
theorem registerFile_initial_status (svc : FileTrackerService) (filePath : String)
    (state : FileState) (now : Nat) (hWF : WellFormed svc) :
    ∃ e, getFileStatus (registerFile svc filePath state now) filePath = some e ∧
      e.status = FileStatus.read_current ∧ e.state = state ∧
      e.firstReadAt = e.lastUpdatedAt := by
  exact ⟨{ path := filePath, state := state, status := FileStatus.read_current
           firstReadAt := now, lastUpdatedAt := now, error := none },
         by unfold getFileStatus; exact mapGet_registerFile svc filePath state now hWF,
         rfl, rfl, rfl⟩

/-- Witness for C9 at a concrete input: registering `a` over the empty
service at tick 0. -/
theorem registerFile_initial_status_witness :
    ∃ e, getFileStatus (registerFile svcEmpty "a" stW 0) "a" = some e ∧
      e.status = FileStatus.read_current ∧ e.state = stW ∧
      e.firstReadAt = e.lastUpdatedAt :=
  registerFile_initial_status svcEmpty "a" stW 0 (by unfold WellFormed; decide)

/-! ### Claim C10 -/

/-- C10: `registerFile` on an already-tracked path replaces the entry
wholesale: afterwards the status is `read_current`, the stored snapshot
is the newly supplied one, the error message is cleared, and
`firstReadAt` is reset to the registration tick, discarding the previous
`firstReadAt`. -/
theorem registerFile_overwrites (svc : FileTrackerService) (filePath : String)
    (state : FileState) (now : Nat) (e0 : FileEntry) (hWF : WellFormed svc)
    (_h : getFileStatus svc filePath = some e0) :
    getFileStatus (registerFile svc filePath state now) filePath =
      some { path := filePath, state := state, status := FileStatus.read_current
             firstReadAt := now, lastUpdatedAt := now, error := none } := by
  unfold getFileStatus
  exact mapGet_registerFile svc filePath state now hWF

/-- Witness for C10 at a concrete input: re-registering `a` at tick 5
over `svcA` (where `a` carries `firstReadAt = 0` and snapshot `stW`). -/
theorem registerFile_overwrites_witness :
    getFileStatus (registerFile svcA "a" stW2 5) "a" =
      some { path := "a", state := stW2, status := FileStatus.read_current
             firstReadAt := 5, lastUpdatedAt := 5, error := none } :=
  registerFile_overwrites svcA "a" stW2 5 eA (by unfold WellFormed; decide) (by decide)

/-! ### Claim C1 -/

/-- C1 fails on the code: with `maxTrackedFiles = 1`, two
registrations whose `new Date()` calls observe the same clock tick leave
the registry at size 2 with nothing evicted, because `evictOldestEntry`
initializes `oldestTime` to the current tick and only selects entries
with `firstReadAt` strictly earlier.  This closed theorem evaluates the
code on that trace. -/
theorem registerFile_capacity_violation :
    (registerFile (registerFile
        { useContentHash := false, maxTrackedFiles := 1
          trackAllFiles := false, trackedFiles := [] } "a" stW 5) "b" stW 5).trackedFiles.length = 2 ∧
    (registerFile (registerFile
        { useContentHash := false, maxTrackedFiles := 1
          trackAllFiles := false, trackedFiles := [] } "a" stW 5) "b" stW 5).maxTrackedFiles = 1 ∧
    (getFileStatus (registerFile (registerFile
        { useContentHash := false, maxTrackedFiles := 1
          trackAllFiles := false, trackedFiles := [] } "a" stW 5) "b" stW 5) "a").isSome = true ∧
    (getFileStatus (registerFile (registerFile
        { useContentHash := false, maxTrackedFiles := 1
          trackAllFiles := false, trackedFiles := [] } "a" stW 5) "b" stW 5) "b").isSome = true := by
  decide

/-! ### Claim C4 -/

/-- C4: `updateFileState` on an untracked path fails with the
`File not tracked` error naming the path; the exception aborts the call,
so no entry is created and the registry is unchanged. -/
theorem updateFileState_untracked (svc : FileTrackerService) (filePath : String)
    (newState : FileState) (now : Nat) (fs : FileSystem)
    (h : mapGet svc.trackedFiles filePath = none) :
    updateFileState svc filePath newState now fs =
      .error ("File not tracked: " ++ filePath) := by
  unfold updateFileState
  rw [h]

/-- Witness for C4 at a concrete input: updating `a` on the empty
service. -/
theorem updateFileState_untracked_witness :
    updateFileState svcEmpty "a" stW 0 fsNone =
      .error ("File not tracked: " ++ "a") :=
  updateFileState_untracked svcEmpty "a" stW 0 fsNone (by decide)

/-! ### Claim C7 -/

/-- C7: for a path with no entry in the registry, `isFileStale` returns
`false` (without touching the registry) and `getFileStatus` returns
`undefined` (`none`). -/
theorem untracked_queries (svc : FileTrackerService) (filePath : String)
    (fs : FileSystem) (h : mapGet svc.trackedFiles filePath = none) :
    isFileStale svc filePath fs = (svc, false) ∧
      getFileStatus svc filePath = none := by
  constructor
  · simp only [isFileStale, h]
  · simpa only [getFileStatus] using h

/-- Witness for C7 at a concrete input: querying `b`, never registered
in `svcA`. -/
theorem untracked_queries_witness :
    isFileStale svcA "b" fsA = (svcA, false) ∧ getFileStatus svcA "b" = none :=
  untracked_queries svcA "b" fsA (by decide)

/-! ### Claim C6 -/

/-- C6: when the freshness comparison on a tracked path fails (the
evaluator cannot stat the path), `isFileStale` returns `true` and the
registry — hence every field of the entry — is unchanged. -/
theorem isFileStale_compare_fails (svc : FileTrackerService) (filePath : String)
    (fs : FileSystem) (e : FileEntry)
    (h : mapGet svc.trackedFiles filePath = some e) (hfs : fs filePath = none) :
    isFileStale svc filePath fs = (svc, true) := by
  simp only [isFileStale, h, checkFreshness, hfs]

/-- Witness for C6 at a concrete input: path `a` is tracked in `svcA`
but inaccessible in `fsNone`. -/
theorem isFileStale_compare_fails_witness :
    isFileStale svcA "a" fsNone = (svcA, true) :=
  isFileStale_compare_fails svcA "a" fsNone eA (by decide) rfl

/-! ### Claim C3 -/

/-- C3: `updateFileState` on a tracked path succeeds, stores the new
snapshot and refreshes `lastUpdatedAt` in all outcomes (leaving
`firstReadAt` alone), and sets the status from the evaluator's verdict:
fresh ⇒ `read_current`, not fresh ⇒ `read_stale`, comparison failure ⇒
`read_error` with the thrown message captured in the entry. -/
theorem updateFileState_tracked (svc : FileTrackerService) (filePath : String)
    (newState : FileState) (now : Nat) (fs : FileSystem) (e : FileEntry)
    (h : mapGet svc.trackedFiles filePath = some e) :
    ∃ svc', updateFileState svc filePath newState now fs = .ok svc' ∧
      ∃ e', mapGet svc'.trackedFiles filePath = some e' ∧
        e'.state = newState ∧ e'.lastUpdatedAt = now ∧
        e'.firstReadAt = e.firstReadAt ∧
        (∀ r, checkFreshness svc.useContentHash filePath newState fs = .ok r →
          e'.status = if r.isFresh then FileStatus.read_current else FileStatus.read_stale) ∧
        (∀ msg, checkFreshness svc.useContentHash filePath newState fs = .error msg →
          e'.status = FileStatus.read_error ∧ e'.error = some msg) := by
  cases hc : checkFreshness svc.useContentHash filePath newState fs with
  | ok r =>
      have hres : updateFileState svc filePath newState now fs =
          .ok { svc with trackedFiles := (mapSet svc.trackedFiles filePath
            { e with
                state := newState
                lastUpdatedAt := now
                status := if r.isFresh then FileStatus.read_current else FileStatus.read_stale
                error := none }) } := by
        simp only [updateFileState, h, hc]
      refine ⟨_, hres, _, mapGet_mapSet_self _ _ _, rfl, rfl, rfl, ?_, ?_⟩
      · intro r' hr'
        cases hr'
        rfl
      · intro msg hmsg
        exact Except.noConfusion hmsg
  | error msg =>
      have hres : updateFileState svc filePath newState now fs =
          .ok { svc with trackedFiles := (mapSet svc.trackedFiles filePath
            { e with
                state := newState
                lastUpdatedAt := now
                status := FileStatus.read_error
                error := some msg }) } := by
        simp only [updateFileState, h, hc]
      refine ⟨_, hres, _, mapGet_mapSet_self _ _ _, rfl, rfl, rfl, ?_, ?_⟩
      · intro r' hr'
        exact Except.noConfusion hr'
      · intro msg' hmsg
        cases hmsg
        exact ⟨rfl, rfl⟩

/-- Witness for C3 at a concrete input: updating tracked path `a` in
`svcA` with the snapshot `stW2`, whose metadata disagrees with the live
file `dW` (a `read_stale` verdict). -/
theorem updateFileState_tracked_witness :
    ∃ svc', updateFileState svcA "a" stW2 7 fsA = .ok svc' ∧
      ∃ e', mapGet svc'.trackedFiles "a" = some e' ∧
        e'.state = stW2 ∧ e'.lastUpdatedAt = 7 ∧
        e'.firstReadAt = eA.firstReadAt ∧
        (∀ r, checkFreshness svcA.useContentHash "a" stW2 fsA = .ok r →
          e'.status = if r.isFresh then FileStatus.read_current else FileStatus.read_stale) ∧
        (∀ msg, checkFreshness svcA.useContentHash "a" stW2 fsA = .error msg →
          e'.status = FileStatus.read_error ∧ e'.error = some msg) :=
  updateFileState_tracked svcA "a" stW2 7 fsA eA (by decide)

/-! ### Claim C5 -/

/-- C5: when capturing a new state fails during `refreshFileState` on a
tracked path, the call returns `false`, the entry's status becomes
`read_error` with the failure's message (which carries the `ENOENT`
not-found indicator), the previously stored snapshot and `firstReadAt`
are unchanged, and `lastUpdatedAt` is refreshed. -/
theorem refreshFileState_capture_fails (svc : FileTrackerService)
    (filePath : String) (now : Nat) (fs : FileSystem) (e : FileEntry)
    (h : mapGet svc.trackedFiles filePath = some e) (hfs : fs filePath = none) :
    (refreshFileState svc filePath now fs).2 = false ∧
    ∃ e', mapGet (refreshFileState svc filePath now fs).1.trackedFiles filePath = some e' ∧
      e'.status = FileStatus.read_error ∧ e'.state = e.state ∧
      e'.firstReadAt = e.firstReadAt ∧ e'.lastUpdatedAt = now ∧
      e'.error = some (fsNotFoundMsg filePath) ∧
      ∃ rest, fsNotFoundMsg filePath = "ENOENT" ++ rest := by
  have hgs : getFileState svc.useContentHash filePath fs =
      .error (fsNotFoundMsg filePath) := by
    simp only [getFileState, hfs]
  have hres : refreshFileState svc filePath now fs =
      ({ svc with trackedFiles := (mapSet svc.trackedFiles filePath
          { e with
              status := FileStatus.read_error
              error := some (fsNotFoundMsg filePath)
              lastUpdatedAt := now }) }, false) := by
    simp only [refreshFileState, h, hgs]
  refine ⟨by rw [hres], ?_⟩
  rw [hres]
  refine ⟨_, mapGet_mapSet_self _ _ _, rfl, rfl, rfl, rfl, rfl, ?_⟩
  refine ⟨": no such file or directory, stat " ++ filePath, ?_⟩
  unfold fsNotFoundMsg
  rw [← String.append_assoc]
  rfl

/-- Witness for C5 at a concrete input: refreshing tracked path `a` of
`svcA` against the filesystem where nothing is accessible. -/
theorem refreshFileState_capture_fails_witness :
    (refreshFileState svcA "a" 9 fsNone).2 = false ∧
    ∃ e', mapGet (refreshFileState svcA "a" 9 fsNone).1.trackedFiles "a" = some e' ∧
      e'.status = FileStatus.read_error ∧ e'.state = eA.state ∧
      e'.firstReadAt = eA.firstReadAt ∧ e'.lastUpdatedAt = 9 ∧
      e'.error = some (fsNotFoundMsg "a") ∧
      ∃ rest, fsNotFoundMsg "a" = "ENOENT" ++ rest :=
  refreshFileState_capture_fails svcA "a" 9 fsNone eA (by decide) rfl

/-! ### Claim C2 -/

/-- C2: `refreshFileState` on an untracked path returns `false` with no
side effect; on a tracked path whose capture succeeds, the captured
snapshot is installed and the entry ends `read_current` (the fresh
capture trivially matches the live file it was just taken from); and in
every case the returned boolean equals whether the entry ended in status
`read_current`. -/
theorem refreshFileState_spec (svc : FileTrackerService) (filePath : String)
    (now : Nat) (fs : FileSystem) :
    (mapGet svc.trackedFiles filePath = none →
      refreshFileState svc filePath now fs = (svc, false)) ∧
    (∀ e d, mapGet svc.trackedFiles filePath = some e → fs filePath = some d →
      ∃ e', mapGet (refreshFileState svc filePath now fs).1.trackedFiles filePath = some e' ∧
        e'.state = mkFileState svc.useContentHash d ∧
        e'.status = FileStatus.read_current) ∧
    ((refreshFileState svc filePath now fs).2 = true ↔
      ∃ e', mapGet (refreshFileState svc filePath now fs).1.trackedFiles filePath = some e' ∧
        e'.status = FileStatus.read_current) := by
  cases hm : mapGet svc.trackedFiles filePath with
  | none =>
      have hres : refreshFileState svc filePath now fs = (svc, false) := by
        simp only [refreshFileState, hm]
      refine ⟨fun _ => hres, ?_, ?_⟩
      · intro e d he _
        exact Option.noConfusion he
      · simp only [hres]
        constructor
        · intro hb
          exact Bool.noConfusion hb
        · rintro ⟨e', he', _⟩
          rw [hm] at he'
          exact Option.noConfusion he'
  | some e =>
      cases hfsp : fs filePath with
      | some d =>
          have hgs : getFileState svc.useContentHash filePath fs =
              .ok (mkFileState svc.useContentHash d) := by
            simp only [getFileState, hfsp]
          have hcf : checkFreshness svc.useContentHash filePath
              (mkFileState svc.useContentHash d) fs = .ok ⟨true⟩ := by
            simp only [checkFreshness, hfsp, mkFileState]
            cases svc.useContentHash <;> simp
          have hres : refreshFileState svc filePath now fs =
              ({ svc with trackedFiles := (mapSet svc.trackedFiles filePath
                  { e with
                      state := mkFileState svc.useContentHash d
                      lastUpdatedAt := now
                      status := FileStatus.read_current
                      error := none }) }, true) := by
            simp only [refreshFileState, hm, hgs, updateFileState, hcf]
            rfl
          refine ⟨?_, ?_, ?_⟩
          · intro hn
            exact Option.noConfusion hn
          · intro e0 d0 _ hd0
            cases hd0
            rw [hres]
            exact ⟨_, mapGet_mapSet_self _ _ _, rfl, rfl⟩
          · simp only [hres]
            constructor
            · intro _
              exact ⟨_, mapGet_mapSet_self _ _ _, rfl⟩
            · intro _
              trivial
      | none =>
          have hgs : getFileState svc.useContentHash filePath fs =
              .error (fsNotFoundMsg filePath) := by
            simp only [getFileState, hfsp]
          have hres : refreshFileState svc filePath now fs =
              ({ svc with trackedFiles := (mapSet svc.trackedFiles filePath
                  { e with
                      status := FileStatus.read_error
                      error := some (fsNotFoundMsg filePath)
                      lastUpdatedAt := now }) }, false) := by
            simp only [refreshFileState, hm, hgs]
          refine ⟨?_, ?_, ?_⟩
          · intro hn
            exact Option.noConfusion hn
          · intro e0 d0 _ hd0
            exact Option.noConfusion hd0
          · simp only [hres]
            constructor
            · intro hb
              exact Bool.noConfusion hb
            · rintro ⟨e', he', hst⟩
              rw [mapGet_mapSet_self] at he'
              cases he'
              exact FileStatus.noConfusion hst

/-- Witness for C2 at concrete inputs: the untracked clause on the empty
service, and the tracked-successful-capture clause on `svcA` against
`fsA`. -/
theorem refreshFileState_spec_witness :
    refreshFileState svcEmpty "a" 0 fsNone = (svcEmpty, false) ∧
    ∃ e', mapGet (refreshFileState svcA "a" 3 fsA).1.trackedFiles "a" = some e' ∧
      e'.state = mkFileState svcA.useContentHash dW ∧
      e'.status = FileStatus.read_current :=
  ⟨(refreshFileState_spec svcEmpty "a" 0 fsNone).1 (by decide),
   (refreshFileState_spec svcA "a" 3 fsA).2.1 eA dW (by decide) (by decide)⟩

/-! ### Stats and the `not_read` invariant (claim C8) -/

theorem sumStats_bumpStat (acc : FileStatus → Nat) (st : FileStatus) :
    sumStats (bumpStat acc st) = sumStats acc + 1 := by
  cases st <;> simp [sumStats, bumpStat] <;> omega

theorem sumStats_foldl (l : List (String × FileEntry)) :
    ∀ acc, sumStats (l.foldl (fun acc pe => bumpStat acc pe.2.status) acc) =
      sumStats acc + l.length := by
  induction l with
  | nil => intro acc; simp
  | cons hd tl ih =>
      intro acc
      simp only [List.foldl_cons, List.length_cons]
      rw [ih, sumStats_bumpStat]
      omega

theorem foldl_bump_not_read (l : List (String × FileEntry)) :
    ∀ acc, StatusInvL l →
      (l.foldl (fun acc pe => bumpStat acc pe.2.status) acc) FileStatus.not_read =
        acc FileStatus.not_read := by
  induction l with
  | nil => intro acc _; rfl
  | cons hd tl ih =>
      intro acc hinv
      obtain ⟨q, e⟩ := hd
      have hne : ¬ (FileStatus.not_read = e.status) :=
        fun hh => hinv q e (List.mem_cons_self _ _) hh.symm
      have htl : StatusInvL tl :=
        fun q' e' hm => hinv q' e' (List.mem_cons_of_mem _ hm)
      simp only [List.foldl_cons]
      rw [ih _ htl]
      unfold bumpStat
      rw [if_neg hne]

theorem statusInvL_mapSet (l : List (String × FileEntry)) (k : String)
    (v : FileEntry) (hl : StatusInvL l) (hv : v.status ≠ FileStatus.not_read) :
    StatusInvL (mapSet l k v) := by
  intro q e hm
  rcases mem_mapSet l k v q e hm with h1 | h1
  · exact hl q e h1
  · have he : e = v := congrArg Prod.snd h1
    rw [he]
    exact hv

theorem statusInvL_mapDelete (l : List (String × FileEntry)) (p : String)
    (hl : StatusInvL l) : StatusInvL (mapDelete l p) :=
  fun q e hm => hl q e (mem_mapDelete l p q e hm)

theorem statusInvL_evict (l : List (String × FileEntry)) (now : Nat)
    (hl : StatusInvL l) : StatusInvL (evictOldestEntry l now) := by
  unfold evictOldestEntry
  cases findOldest l none now with
  | some p => exact statusInvL_mapDelete l p hl
  | none => exact hl

theorem statusInv_registerFile (svc : FileTrackerService) (p : String)
    (s : FileState) (now : Nat) (h : StatusInvL svc.trackedFiles) :
    StatusInvL (registerFile svc p s now).trackedFiles := by
  have hset : StatusInvL (mapSet svc.trackedFiles p
      { path := p, state := s, status := FileStatus.read_current
        firstReadAt := now, lastUpdatedAt := now, error := none }) :=
    statusInvL_mapSet _ _ _ h (by simp)
  simp only [registerFile]
  split
  · exact statusInvL_evict _ _ hset
  · exact hset

theorem statusInv_updateFileState (svc svc' : FileTrackerService) (p : String)
    (s : FileState) (now : Nat) (fs : FileSystem)
    (hok : updateFileState svc p s now fs = .ok svc')
    (h : StatusInvL svc.trackedFiles) : StatusInvL svc'.trackedFiles := by
  cases hm : mapGet svc.trackedFiles p with
  | none =>
      simp only [updateFileState, hm] at hok
      exact Except.noConfusion hok
  | some entry =>
      cases hc : checkFreshness svc.useContentHash p s fs with
      | ok r =>
          simp only [updateFileState, hm, hc] at hok
          cases hok
          refine statusInvL_mapSet _ _ _ h ?_
          obtain ⟨b⟩ := r
          cases b <;> simp
      | error msg =>
          simp only [updateFileState, hm, hc] at hok
          cases hok
          exact statusInvL_mapSet _ _ _ h (by simp)

theorem statusInv_refreshFileState (svc : FileTrackerService) (p : String)
    (now : Nat) (fs : FileSystem) (h : StatusInvL svc.trackedFiles) :
    StatusInvL (refreshFileState svc p now fs).1.trackedFiles := by
  cases hm : mapGet svc.trackedFiles p with
  | none =>
      simp only [refreshFileState, hm]
      exact h
  | some entry =>
      cases hg : getFileState svc.useContentHash p fs with
      | ok ns =>
          cases hu : updateFileState svc p ns now fs with
          | ok svc' =>
              simp only [refreshFileState, hm, hg, hu]
              exact statusInv_updateFileState svc svc' p ns now fs hu h
          | error msg =>
              simp only [refreshFileState, hm, hg, hu]
              exact statusInvL_mapSet _ _ _ h (by simp)
      | error msg =>
          simp only [refreshFileState, hm, hg]
          exact statusInvL_mapSet _ _ _ h (by simp)

theorem isFileStale_fst (svc : FileTrackerService) (p : String) (fs : FileSystem) :
    (isFileStale svc p fs).1 = svc := by
  cases hm : mapGet svc.trackedFiles p with
  | none => simp only [isFileStale, hm]
  | some entry =>
      cases hc : checkFreshness svc.useContentHash p entry.state fs with
      | ok r => simp only [isFileStale, hm, hc]
      | error m => simp only [isFileStale, hm, hc]

theorem statusInv_removeFile (svc : FileTrackerService) (p : String)
    (h : StatusInvL svc.trackedFiles) :
    StatusInvL (removeFile svc p).1.trackedFiles := by
  unfold removeFile
  cases hm : mapGet svc.trackedFiles p with
  | some entry => exact statusInvL_mapDelete _ _ h
  | none => exact h

theorem statusInv_autoTrackFile (svc : FileTrackerService) (p : String)
    (s : FileState) (now : Nat) (h : StatusInvL svc.trackedFiles) :
    StatusInvL (autoTrackFile svc p s now).trackedFiles := by
  unfold autoTrackFile
  by_cases ht : svc.trackAllFiles = true
  · rw [if_pos ht]
    exact statusInv_registerFile svc p s now h
  · rw [if_neg ht]
    exact h

theorem reachable_statusInv (svc : FileTrackerService) (h : Reachable svc) :
    StatusInvL svc.trackedFiles := by
  induction h with
  | init uch max taf => intro q e hm; exact absurd hm (List.not_mem_nil _)
  | register p s now _ ih => exact statusInv_registerFile _ p s now ih
  | update p s now fs _ hok ih =>
      exact statusInv_updateFileState _ _ p s now fs hok ih
  | refresh p now fs _ ih => exact statusInv_refreshFileState _ p now fs ih
  | staleQuery p fs _ ih => rw [isFileStale_fst]; exact ih
  | remove p _ ih => exact statusInv_removeFile _ p ih
  | clearAll _ ih => intro q e hm; exact absurd hm (List.not_mem_nil _)
  | autoTrack p s now _ ih => exact statusInv_autoTrackFile _ p s now ih

/-! ### Claim C8 -/

/-- C8: in every reachable registry state, `getStats` reports a count
for each of the four statuses, these counts sum to the registry size,
and the `not_read` count is zero (untracked paths are never
materialized as entries). -/
theorem getStats_spec (svc : FileTrackerService) (h : Reachable svc) :
    getStats svc FileStatus.not_read = 0 ∧
    getStats svc FileStatus.not_read + getStats svc FileStatus.read_current +
      getStats svc FileStatus.read_stale + getStats svc FileStatus.read_error =
      svc.trackedFiles.length := by
  have hinv := reachable_statusInv svc h
  constructor
  · unfold getStats
    exact foldl_bump_not_read svc.trackedFiles (fun _ => 0) hinv
  · have hsum := sumStats_foldl svc.trackedFiles (fun _ => 0)
    unfold sumStats at hsum
    unfold getStats
    rw [hsum]
    simp

/-- Witness for C8 at a concrete input: the reachable state obtained by
registering `a` on a freshly constructed service. -/
theorem getStats_spec_witness :
    getStats svcA FileStatus.not_read = 0 ∧
    getStats svcA FileStatus.not_read + getStats svcA FileStatus.read_current +
      getStats svcA FileStatus.read_stale + getStats svcA FileStatus.read_error =
      svcA.trackedFiles.length :=
  getStats_spec svcA (Reachable.register "a" stW 0 (Reachable.init false 1000 false))

end FileTracker
